import Mathlib

/-!
Verification development for the build orchestration core of fusion-cli,
a shallow embedding of src/build/compiler.js.

Strings are modelled as `List Char`; the logger and the file system are
modelled by explicit effect traces; external collaborators (the bundling
engine, rimraf, the dev/hot middlewares) are modelled from their contracts
in the specification, with the orchestration code translated directly from
the source.
-/

set_option maxHeartbeats 1000000

namespace FusionBuild

/-- A JavaScript Error value as consumed by the stats logger
(src/build/compiler.js lines 38-44): `logger.error(err.stack || err)` logs
the stack when present, else the error value itself (`selfRepr`); `details`
is the optional structured detail logged afterwards. -/
structure JsError where
  stack : Option (List Char)
  selfRepr : List Char
  details : Option (List Char)
deriving DecidableEq

/-- One entry of a child build's `assets` array: a name and a byte size. -/
structure Asset where
  name : List Char
  size : Nat
deriving DecidableEq

/-- One child build inside the serialized stats tree: a name and its assets. -/
structure Child where
  name : List Char
  assets : List Asset
deriving DecidableEq

/-- The serialized stats tree `stats.toJson(...)` (src/build/compiler.js
line 47): children with assets, plus aggregate error/warning message lists. -/
structure StatsInfo where
  children : List Child
  errors : List (List Char)
  warnings : List (List Char)
deriving DecidableEq

/-- A webpack `stats` object as used by the stats logger: `toJson` yields
`info`, and `hasErrors()` / `hasWarnings()` are modelled as fields. -/
structure Stats where
  info : StatsInfo
  hasErrors : Bool
  hasWarnings : Bool
deriving DecidableEq

/-- One observable side effect of the stats logger: the best-effort stats
artifact write (src/build/compiler.js line 48) or a logger call at
error/warn/info severity. -/
inductive Effect where
  | writeStats (info : StatsInfo)
  | logError (msg : List Char)
  | logWarn (msg : List Char)
  | logInfo (msg : List Char)
deriving DecidableEq

def isWriteStats : Effect → Bool
  | .writeStats _ => true
  | _ => false

def isLogError : Effect → Bool
  | .logError _ => true
  | _ => false

def isLogWarn : Effect → Bool
  | .logWarn _ => true
  | _ => false

def isLogInfo : Effect → Bool
  | .logInfo _ => true
  | _ => false

/-- ASCII case folding used to model the regex `i` flag; the pattern in the
source contains only ASCII letters, for which JavaScript case-insensitive
matching coincides with ASCII lowercasing. -/
def foldCase (c : Char) : Char := c.toLower

/-- The literal head of the dedupe regex, `BabelLoaderError`, stored
case-folded (16 characters). -/
def babelMarker : List Char := "babelloadererror".data

/-- The capture-group-2 literal of the dedupe regex, four spaces followed by
`at transpile` (16 characters), already lowercase. -/
def transpileFrag : List Char := "    at transpile".data

def markerLen : Nat := 16

def fragLen : Nat := 16

/-- Case-insensitive match of pattern `pat` (stored case-folded) at offset
`i` of `s`. -/
def matchesAt (pat s : List Char) (i : Nat) : Bool :=
  ((s.drop i).take pat.length).map foldCase == pat

/-- All offsets `j ≥ lo` of `s` at which the trace fragment matches. -/
def fragFrom (s : List Char) (lo : Nat) : List Nat :=
  (List.range s.length).filter (fun j => lo ≤ j && matchesAt transpileFrag s j)

/-- A character matchable by `(.|\n)`: JavaScript `.` matches everything
except the line terminators LF, CR, LS, PS, and the alternation adds LF
back, so only CR, LS and PS are excluded. -/
def dotOrNewline (c : Char) : Bool :=
  !(c == '\r' || c == '\u2028' || c == '\u2029')

/-- The end of the maximal run of `(.|\n)`-matchable characters of `s`
starting at offset `p`. -/
def consumableRunEnd (s : List Char) (p : Nat) : Nat :=
  p + ((s.drop p).takeWhile dotOrNewline).length

/-- Group 2's offset when the regex matches at marker offset `i`: `(.|\n)+`
must consume at least one character (`j ≥ i + markerLen + 1`) and only
`(.|\n)`-matchable characters (`j ≤ consumableRunEnd s (i + markerLen)`);
being greedy it backtracks from the right, so group 2 lands on the greatest
admissible fragment offset. -/
def spanFragEnd (s : List Char) (i : Nat) : Option Nat :=
  ((fragFrom s (i + markerLen + 1)).filter
    (fun j => j ≤ consumableRunEnd s (i + markerLen))).getLast?

/-- The first match of `/BabelLoaderError(.|\n)+( {4}at transpile)/gim` at
offset `p` or later (src/build/compiler.js line 32): the regex engine takes
the least start offset `i ≥ p` at which the marker literal matches and the
rest of the pattern can succeed; `j` is group 2's offset for that start. -/
def findMatchFrom (s : List Char) (p : Nat) : Option (Nat × Nat) :=
  (((List.range s.length).filter
      (fun i => p ≤ i && matchesAt babelMarker s i)).filterMap
    (fun i => (spanFragEnd s i).map (fun j => (i, j)))).head?

/-- The global-replace scan of `item.replace(re, '$2')` over `s[p..)`: each
match `(i, j)` — spanning `s[i .. j + fragLen)` — is replaced by the text
matched by group 2, the fragment occurrence at `j` in its original case,
and scanning resumes at the end of the match.  `fuel` only bounds the
recursion; every match advances `p` by more than `markerLen`, so
`s.length + 1` units never run out. -/
def replaceScan (s : List Char) : Nat → Nat → List Char
  | _, 0 => []
  | p, fuel + 1 =>
      match findMatchFrom s p with
      | none => s.drop p
      | some (i, j) =>
          (s.drop p).take (i - p) ++ (s.drop j).take fragLen ++
            replaceScan s (j + fragLen) fuel

/-- `item.replace(re, '$2')` (src/build/compiler.js line 33) on a whole
message. -/
def dedupeOne (s : List Char) : List Char :=
  replaceScan s 0 (s.length + 1)

/-- `dedupeErrors` (src/build/compiler.js lines 31-34): rewrites each message
of the list independently via the regex replace. -/
def dedupeErrors (items : List (List Char)) : List (List Char) :=
  items.map dedupeOne

/-- `chalk.bold` wraps its argument in ANSI bold escape sequences. -/
def chalkBold (s : List Char) : List Char :=
  "\x1b[1m".data ++ s ++ "\x1b[22m".data

/-- The template literal at src/build/compiler.js line 65. -/
def entrypointLine (childName : List Char) : List Char :=
  "Entrypoint: ".data ++ chalkBold childName

/-- The template literal at src/build/compiler.js line 66. -/
def assetLine (assetName : List Char) : List Char :=
  "Asset: ".data ++ chalkBold assetName

/-- The template literal at src/build/compiler.js line 67; the numeric size
is coerced to its decimal string. -/
def sizeLine (size : Nat) : List Char :=
  "Size: ".data ++ chalkBold (toString size).data ++ " bytes".data

/-- Stable insertion of an asset into a list sorted by strictly descending
size: the element goes after every earlier element of greater-or-equal size,
matching the comparator `(a, b) => b.size - a.size` under the (ES2019)
stable-sort contract. -/
def insertBySizeDesc (a : Asset) : List Asset → List Asset
  | [] => [a]
  | b :: bs => if b.size < a.size then a :: b :: bs else b :: insertBySizeDesc a bs

/-- Stable sort by descending size, modelling
`.sort((a, b) => b.size - a.size)` at src/build/compiler.js lines 61-63. -/
def sortBySizeDesc : List Asset → List Asset
  | [] => []
  | a :: rest => insertBySizeDesc a (sortBySizeDesc rest)

/-- The production per-child asset report (src/build/compiler.js lines
55-69): non-`.map` assets, sorted by descending size, three info lines per
asset. -/
def assetReport (child : Child) : List Effect :=
  (sortBySizeDesc (child.assets.filter
      (fun a => !(List.isSuffixOf ".map".data a.name)))).flatMap
    (fun a => [Effect.logInfo (entrypointLine child.name),
               Effect.logInfo (assetLine a.name),
               Effect.logInfo (sizeLine a.size)])

/-- The handler produced by `getStatsLogger({dir, logger, envs})`
(src/build/compiler.js lines 27-75), as the effect trace of one invocation:
on a hard error, log `err.stack || err` and the optional `err.details` and
return; otherwise write the stats artifact, log deduplicated errors when
`stats.hasErrors()`, emit the per-asset report when `envs` includes
`production`, and log deduplicated warnings when `stats.hasWarnings()`. -/
def getStatsLoggerRun (envs : List (List Char)) (err : Option JsError)
    (stats : Stats) : List Effect :=
  let isProd := envs.contains "production".data
  match err with
  | some e =>
      Effect.logError (e.stack.getD e.selfRepr) ::
        (match e.details with
         | some d => [Effect.logError d]
         | none => [])
  | none =>
      Effect.writeStats stats.info ::
        ((if stats.hasErrors then
            (dedupeErrors stats.info.errors).map Effect.logError
          else []) ++
         (if isProd then stats.info.children.flatMap assetReport else []) ++
         (if stats.hasWarnings then
            (dedupeErrors stats.info.warnings).map Effect.logWarn
          else []))

/-- Handle to a `DeferredState` instance allocated by
`new DeferredState()` (src/build/compiler.js lines 90-91); reference
identity of the container is modelled by handle equality. -/
structure DeferredStateRef where
  id : Nat
deriving DecidableEq

/-- The `state` bag built once per Compiler instance (src/build/compiler.js
lines 89-92). -/
structure StateBag where
  clientChunkMetadata : DeferredStateRef
  i18nManifest : DeferredStateRef
deriving DecidableEq

/-- `sharedOpts` (src/build/compiler.js line 101): the common options spread
into every config-provider call.  `fusionConfig` and `legacyPkgConfig` are
opaque external values, modelled by reference handles. -/
structure SharedOpts where
  dir : List Char
  isWatch : Bool
  state : StateBag
  fusionConfig : Nat
  legacyPkgConfig : Nat
deriving DecidableEq

/-- The two target kinds handed to the config provider: `'web'` (browser)
and `'node'` (server). -/
inductive Target where
  | web
  | node
deriving DecidableEq

/-- One invocation of the external config provider `getWebpackConfig`
(src/build/compiler.js lines 105-106) and, identifying the pure provider's
opaque result with its argument tuple (spec section 6), the configuration it
returns. -/
structure WebpackConfig where
  target : Target
  env : List Char
  opts : SharedOpts
deriving DecidableEq

/-- `getWebpackConfig({target, env, ...sharedOpts})`: the provider is
external and pure, so a call is modelled by its argument record. -/
def getWebpackConfig (target : Target) (env : List Char) (opts : SharedOpts) :
    WebpackConfig :=
  ⟨target, env, opts⟩

/-- `profiles` (src/build/compiler.js lines 103-108): one browser/server
pair of provider calls per environment, in the given environment order. -/
def profiles (envs : List (List Char)) (opts : SharedOpts) :
    List (List WebpackConfig) :=
  envs.map (fun env =>
    [getWebpackConfig Target.web env opts, getWebpackConfig Target.node env opts])

/-- `flattened = [].concat(...profiles)` (src/build/compiler.js line 109):
the ordered configuration sequence handed to `webpack(flattened)`. -/
def flattenedConfigs (envs : List (List Char)) (opts : SharedOpts) :
    List WebpackConfig :=
  (profiles envs opts).flatten

/-- One observable action while the orchestrator's `start` handler and the
engine process completion events: a stats-reporter invocation (with its
effect trace), a call of the original `start` callback, or the firing of
one registered tap of the engine's `done` hook. -/
inductive WatchAction where
  | reporterRan (effs : List Effect)
  | cbInvoked (err : Option JsError) (stats : Stats)
  | doneHookFired (tap : Nat)
deriving DecidableEq

def isReporterRan : WatchAction → Bool
  | .reporterRan _ => true
  | _ => false

def isCbInvoked : WatchAction → Bool
  | .cbInvoked _ _ => true
  | _ => false

def isDoneHookFired : WatchAction → Bool
  | .doneHookFired _ => true
  | _ => false

/-- The type of the `start` callback, as the action trace its invocation
produces. -/
def CbFn : Type := Option JsError → Stats → List WatchAction

/-- A probe callback recording its invocation and arguments. -/
def cbProbe : CbFn := fun err stats => [WatchAction.cbInvoked err stats]

/-- `cb = cb || function noop() {}` (src/build/compiler.js line 116): an
omitted callback is replaced by a no-op. -/
def resolveCb (cb : Option CbFn) : CbFn :=
  cb.getD (fun _ _ => [])

/-- One invocation of the completion handler built inside `Compiler.start`
(src/build/compiler.js lines 120-127): the stats logger runs
unconditionally; `cb` runs only when the `hasCalledCb` latch is still
unset, and the latch is set afterwards.  Returns the new latch value and
the action trace of this invocation. -/
def startHandlerStep (envs : List (List Char)) (cb : CbFn) (hasCalledCb : Bool)
    (ev : Option JsError × Stats) : Bool × List WatchAction :=
  (true,
   WatchAction.reporterRan (getStatsLoggerRun envs ev.1 ev.2) ::
     (if hasCalledCb then [] else cb ev.1 ev.2))

/-- The handler's accumulated trace over a sequence of completion events,
threading the `hasCalledCb` latch. -/
def startHandlerRun (envs : List (List Char)) (cb : CbFn) :
    Bool → List (Option JsError × Stats) → List WatchAction
  | _, [] => []
  | called, ev :: rest =>
      (startHandlerStep envs cb called ev).2 ++
        startHandlerRun envs cb (startHandlerStep envs cb called ev).1 rest

/-- Modelled from the spec (section 6): in watch mode the engine invokes
its completion handler once per (re)build, and on every completion fires
each of the `doneTaps` callbacks registered on its `done` hook via
`this.on('done', ...)` (src/build/compiler.js line 114).  The relative
order of hook dispatch and handler invocation within one completion is not
relied upon. -/
def watchTrace (envs : List (List Char)) (cb : CbFn) (doneTaps : Nat) :
    Bool → List (Option JsError × Stats) → List WatchAction
  | _, [] => []
  | called, ev :: rest =>
      (List.range doneTaps).map WatchAction.doneHookFired ++
        (startHandlerStep envs cb called ev).2 ++
        watchTrace envs cb doneTaps (startHandlerStep envs cb called ev).1 rest

/-- The controller returned by `start`: its `close()` and `invalidate()`
are modelled by the action traces their calls produce. -/
structure WatchController where
  close : List WatchAction
  invalidate : List WatchAction
deriving DecidableEq

/-- The object literal returned in non-watch mode (src/build/compiler.js
lines 133-136): `close() {}` and `invalidate() {}` do nothing. -/
def oneShotController : WatchController :=
  ⟨[], []⟩

/-- Modelled from the spec (section 6): `compiler.run(handler)`
(src/build/compiler.js line 131) triggers a single compilation and invokes
the handler once with its `(error, stats)` outcome. -/
def compilerRunTrace (envs : List (List Char)) (cb : CbFn)
    (ev : Option JsError × Stats) : List WatchAction :=
  (startHandlerStep envs cb false ev).2

/-- One observable action of the composed development middleware chain. -/
inductive MwAction where
  | devRan (req res : Nat)
  | hotRan (req res : Nat)
  | nextInvoked (err : Option Nat)
deriving DecidableEq

def isHotRan : MwAction → Bool
  | .hotRan _ _ => true
  | _ => false

/-- A host `next` continuation, as the action trace of one invocation. -/
def NextFn : Type := Option Nat → List MwAction

/-- A connect-style request handler; requests, responses and errors are
opaque external values, modelled by handles. -/
def MwHandler : Type := Nat → Nat → NextFn → List MwAction

/-- The composed handler returned by `getMiddleware()`
(src/build/compiler.js lines 154-159): run the dev middleware first; if it
reports an error, forward it to `next`; otherwise chain into the hot
middleware with the same request, response and `next`. -/
def composedMiddleware (dev hot : MwHandler) : MwHandler :=
  fun req res next =>
    dev req res (fun err =>
      match err with
      | some e => next (some e)
      | none => hot req res next)

/-- Modelled from the spec (section 4.3): the asset-serving development
middleware handles the request and invokes its completion callback once,
with whatever outcome it reports for the request. -/
def devMiddlewareOf (outcome : Nat → Nat → Option Nat) : MwHandler :=
  fun req res k => MwAction.devRan req res :: k (outcome req res)

/-- Modelled from the spec (section 4.5): the hot-update middleware, probed
as recording its invocation and then deferring to the `next` it was handed
(with no error). -/
def hotMiddlewareProbe : MwHandler :=
  fun req res next => MwAction.hotRan req res :: next none

/-- The host pipeline's `next`, recording what it was invoked with. -/
def hostNext : NextFn :=
  fun err => [MwAction.nextInvoked err]

/-- A file system as the list of existing paths (each path a string). -/
def FileSys : Type := List (List Char)

/-- The path `` `${dir}/.fusion` `` removed by `clean`
(src/build/compiler.js line 164). -/
def cleanPath (dir : List Char) : List Char :=
  dir ++ "/.fusion".data

/-- Modelled from the spec (sections 4.4 and 8): `rimraf(p, cb)` removes
the directory tree at `p` — removing an already-absent path succeeds — and
reports success or an injected I/O failure through its callback's error
argument. -/
def rimrafRun (fsys : FileSys) (p : List Char) (ioErr : Option Nat) :
    FileSys × Option Nat :=
  match ioErr with
  | some e => (fsys, some e)
  | none => (fsys.filter (fun q => !(List.isPrefixOf p q)), none)

/-- `this.clean` (src/build/compiler.js lines 162-166): run rimraf on
`` `${dir}/.fusion` `` and settle the promise from the callback's error
argument: `e => (e ? reject(e) : resolve())`. -/
def cleanRun (dir : List Char) (fsys : FileSys) (ioErr : Option Nat) :
    FileSys × Except Nat Unit :=
  match rimrafRun fsys (cleanPath dir) ioErr with
  | (fsys', some e) => (fsys', Except.error e)
  | (fsys', none) => (fsys', Except.ok ())

/-- A doubled transpiler-error message: the marker/trace block repeated
twice, as in the spec's deduplication scenario. -/
def babelBlock : List Char := "BabelLoaderError: x\n    at transpile".data

def babelDoubled : List Char := babelBlock ++ babelBlock

def devEnvName : List Char := "development".data

def prodEnvName : List Char := "production".data

def sampleOpts : SharedOpts := ⟨"/proj".data, false, ⟨⟨0⟩, ⟨1⟩⟩, 2, 3⟩

def assetSampleMap : Asset := ⟨"a.js.map".data, 500⟩

def assetSampleB : Asset := ⟨"b.js".data, 300⟩

def assetSampleC : Asset := ⟨"c.js".data, 900⟩

def childSample : Child :=
  ⟨"client".data, [assetSampleMap, assetSampleB, assetSampleC]⟩

def statsSampleProd : Stats := ⟨⟨[childSample], [], []⟩, false, false⟩

def statsSampleEmpty : Stats := ⟨⟨[], [], []⟩, false, false⟩

def errSample : JsError := ⟨some "boom-stack".data, "boom".data, none⟩

/-- A dev-middleware outcome that reports error 5 for every request. -/
def sampleOutcomeErr : Nat → Nat → Option Nat := fun _ _ => some 5

/-- Case-sensitive substring test, used to state what survives a dedupe
rewrite. -/
def occursIn (pat s : List Char) : Bool :=
  (List.range (s.length + 1)).any (fun i => (s.drop i).take pat.length == pat)

lemma startHandlerRun_called (envs : List (List Char)) (cb : CbFn)
    (l : List (Option JsError × Stats)) :
    startHandlerRun envs cb true l =
      l.map (fun ev => WatchAction.reporterRan (getStatsLoggerRun envs ev.1 ev.2)) := by
  induction l with
  | nil => rfl
  | cons ev rest ih => simp [startHandlerRun, startHandlerStep, ih]

lemma countP_map_reporterRan_isCb (l : List (List Effect)) :
    (l.map WatchAction.reporterRan).countP isCbInvoked = 0 := by
  rw [List.countP_map]
  exact List.countP_eq_zero.2 (by intro a _; simp [Function.comp, isCbInvoked])

lemma countP_startHandlerRun_called_isCb (envs : List (List Char)) (cb : CbFn)
    (l : List (Option JsError × Stats)) :
    (startHandlerRun envs cb true l).countP isCbInvoked = 0 := by
  rw [startHandlerRun_called, List.countP_map]
  exact List.countP_eq_zero.2 (by intro a _; simp [Function.comp, isCbInvoked])

lemma watchTrace_called (envs : List (List Char)) (cb : CbFn) (taps : Nat)
    (l : List (Option JsError × Stats)) :
    watchTrace envs cb taps true l =
      l.flatMap (fun ev =>
        (List.range taps).map WatchAction.doneHookFired ++
          [WatchAction.reporterRan (getStatsLoggerRun envs ev.1 ev.2)]) := by
  induction l with
  | nil => rfl
  | cons ev rest ih => simp [watchTrace, startHandlerStep, ih]

lemma countP_doneBlock_isCb (taps : Nat) :
    ((List.range taps).map WatchAction.doneHookFired).countP isCbInvoked = 0 := by
  rw [List.countP_map]
  exact List.countP_eq_zero.2 (by intro a _; simp [Function.comp, isCbInvoked])

lemma countP_doneBlock_isReporter (taps : Nat) :
    ((List.range taps).map WatchAction.doneHookFired).countP isReporterRan = 0 := by
  rw [List.countP_map]
  exact List.countP_eq_zero.2 (by intro a _; simp [Function.comp, isReporterRan])

lemma countP_doneBlock_isDone (taps : Nat) :
    ((List.range taps).map WatchAction.doneHookFired).countP isDoneHookFired = taps := by
  rw [List.countP_map]
  have h : ∀ a ∈ List.range taps, (isDoneHookFired ∘ WatchAction.doneHookFired) a = true := by
    intro a _; simp [Function.comp, isDoneHookFired]
  calc (List.range taps).countP (isDoneHookFired ∘ WatchAction.doneHookFired)
      = (List.range taps).length := List.countP_eq_length.2 h
    _ = taps := List.length_range taps

lemma countP_watchTrace_called_isCb (envs : List (List Char)) (cb : CbFn)
    (taps : Nat) (l : List (Option JsError × Stats)) :
    (watchTrace envs cb taps true l).countP isCbInvoked = 0 := by
  induction l with
  | nil => rfl
  | cons ev rest ih =>
      simp [watchTrace, startHandlerStep, List.countP_append, ih,
        countP_doneBlock_isCb, isCbInvoked]

lemma countP_watchTrace_called_isReporter (envs : List (List Char)) (cb : CbFn)
    (taps : Nat) (l : List (Option JsError × Stats)) :
    (watchTrace envs cb taps true l).countP isReporterRan = l.length := by
  induction l with
  | nil => rfl
  | cons ev rest ih =>
      simp [watchTrace, startHandlerStep, List.countP_append, ih,
        countP_doneBlock_isReporter, isReporterRan]

lemma countP_watchTrace_called_isDone (envs : List (List Char)) (cb : CbFn)
    (taps : Nat) (l : List (Option JsError × Stats)) :
    (watchTrace envs cb taps true l).countP isDoneHookFired = taps * l.length := by
  induction l with
  | nil => simp [watchTrace]
  | cons ev rest ih =>
      simp only [watchTrace, startHandlerStep, List.countP_append, ih,
        countP_doneBlock_isDone]
      simp [isDoneHookFired, List.length_cons, Nat.mul_succ, Nat.mul_add]
      ring

/-- C1: in watch mode, over any sequence of one or more completion events,
the stats reporter runs on every completion, the original `start` callback
is invoked exactly once — on the first completion, with its `(error, stats)`
pair — later completions produce no callback invocation, and every
registered `done`-hook tap fires on all completions. -/
theorem c1_watch_cb_once_reporter_always (envs : List (List Char)) (taps : Nat)
    (ev : Option JsError × Stats) (rest : List (Option JsError × Stats)) :
    watchTrace envs cbProbe taps false (ev :: rest) =
      (List.range taps).map WatchAction.doneHookFired ++
        [WatchAction.reporterRan (getStatsLoggerRun envs ev.1 ev.2),
         WatchAction.cbInvoked ev.1 ev.2] ++
        watchTrace envs cbProbe taps true rest
    ∧ (watchTrace envs cbProbe taps true rest).countP isCbInvoked = 0
    ∧ (watchTrace envs cbProbe taps false (ev :: rest)).countP isCbInvoked = 1
    ∧ (watchTrace envs cbProbe taps false (ev :: rest)).countP isReporterRan
        = rest.length + 1
    ∧ (watchTrace envs cbProbe taps false (ev :: rest)).countP isDoneHookFired
        = taps * (rest.length + 1) := by
  have hshape : watchTrace envs cbProbe taps false (ev :: rest) =
      (List.range taps).map WatchAction.doneHookFired ++
        [WatchAction.reporterRan (getStatsLoggerRun envs ev.1 ev.2),
         WatchAction.cbInvoked ev.1 ev.2] ++
        watchTrace envs cbProbe taps true rest := by
    simp [watchTrace, startHandlerStep, cbProbe]
  refine ⟨hshape, countP_watchTrace_called_isCb envs cbProbe taps rest, ?_, ?_, ?_⟩
  · rw [hshape]
    simp [List.countP_append, countP_doneBlock_isCb,
      countP_watchTrace_called_isCb, isCbInvoked, List.countP_cons]
  · rw [hshape]
    simp [List.countP_append, countP_doneBlock_isReporter,
      countP_watchTrace_called_isReporter, isReporterRan, List.countP_cons]
  · rw [hshape, List.countP_append, List.countP_append, countP_doneBlock_isDone,
      countP_watchTrace_called_isDone]
    simp [isDoneHookFired, List.countP_cons]
    ring

/-- C2: in one-shot mode, `start(cb)` triggers one compilation whose
handler runs the stats reporter and then invokes `cb` exactly once with
that compilation's `(error, stats)` pair; the callback fires exactly once
no matter how many events reach the handler; the returned controller's
`close()` and `invalidate()` are inert; and an omitted callback is replaced
by a no-op. -/
theorem c2_one_shot_run (envs : List (List Char)) (ev : Option JsError × Stats) :
    compilerRunTrace envs cbProbe ev =
      [WatchAction.reporterRan (getStatsLoggerRun envs ev.1 ev.2),
       WatchAction.cbInvoked ev.1 ev.2]
    ∧ (compilerRunTrace envs cbProbe ev).countP isCbInvoked = 1
    ∧ (∀ rest, (startHandlerRun envs cbProbe false (ev :: rest)).countP
        isCbInvoked = 1)
    ∧ oneShotController.close = []
    ∧ oneShotController.invalidate = []
    ∧ (∀ e st, resolveCb none e st = []) := by
  refine ⟨by simp [compilerRunTrace, startHandlerStep, cbProbe], ?_, ?_, rfl, rfl,
    fun e st => rfl⟩
  · simp [compilerRunTrace, startHandlerStep, cbProbe, isCbInvoked,
      List.countP_cons]
  · intro rest
    simp [startHandlerRun, startHandlerStep, cbProbe, List.countP_append,
      countP_startHandlerRun_called_isCb, isCbInvoked, List.countP_cons]

lemma flattenedConfigs_cons (e : List Char) (es : List (List Char))
    (opts : SharedOpts) :
    flattenedConfigs (e :: es) opts =
      getWebpackConfig Target.web e opts :: getWebpackConfig Target.node e opts ::
        flattenedConfigs es opts := by
  simp [flattenedConfigs, profiles]

lemma length_flattenedConfigs (envs : List (List Char)) (opts : SharedOpts) :
    (flattenedConfigs envs opts).length = 2 * envs.length := by
  induction envs with
  | nil => rfl
  | cons e es ih =>
      rw [flattenedConfigs_cons]
      simp only [List.length_cons, ih]
      ring

lemma flattenedConfigs_flatMap (envs : List (List Char)) (opts : SharedOpts) :
    flattenedConfigs envs opts =
      envs.flatMap (fun env =>
        [getWebpackConfig Target.web env opts,
         getWebpackConfig Target.node env opts]) := by
  induction envs with
  | nil => rfl
  | cons e es ih => rw [flattenedConfigs_cons, List.flatMap_cons, ih]; rfl

lemma env_of_mem_flattenedConfigs (opts : SharedOpts) (c : WebpackConfig) :
    ∀ envs : List (List Char), c ∈ flattenedConfigs envs opts → c.env ∈ envs := by
  intro envs h
  induction envs with
  | nil => simp [flattenedConfigs, profiles] at h
  | cons e es ih =>
      rw [flattenedConfigs_cons] at h
      rcases List.mem_cons.1 h with h1 | h'
      · rw [h1]; exact List.mem_cons_self e es
      · rcases List.mem_cons.1 h' with h2 | h3
        · rw [h2]; exact List.mem_cons_self e es
        · exact List.mem_cons_of_mem e (ih h3)

lemma count_target_env (opts : SharedOpts) (t : Target) (env₀ : List Char) :
    ∀ envs : List (List Char), envs.Nodup →
      (flattenedConfigs envs opts).countP
        (fun c => decide (c.target = t ∧ c.env = env₀))
        = if env₀ ∈ envs then 1 else 0 := by
  intro envs h
  induction envs with
  | nil => simp [flattenedConfigs, profiles]
  | cons e es ih =>
      rw [List.nodup_cons] at h
      obtain ⟨he, hes⟩ := h
      have hrest := ih hes
      rw [flattenedConfigs_cons, List.countP_cons, List.countP_cons, hrest]
      by_cases heq : env₀ = e
      · subst heq
        cases t <;> simp [getWebpackConfig, he, List.mem_cons]
      · have hne : ¬(e = env₀) := fun hh => heq hh.symm
        simp [getWebpackConfig, hne, heq, List.mem_cons]

/-- C3: for every environment list the Build Profile Assembler calls the
config provider exactly twice per environment, and hands the engine the
flattened sequence in the order browser-then-server within each
environment, environments in the given order; for duplicate-free
environment lists each (target, environment) pair occurs exactly once. -/
theorem c3_profile_assembly (envs : List (List Char)) (opts : SharedOpts) :
    (flattenedConfigs envs opts).length = 2 * envs.length
    ∧ flattenedConfigs envs opts =
        envs.flatMap (fun env =>
          [getWebpackConfig Target.web env opts,
           getWebpackConfig Target.node env opts])
    ∧ (envs.Nodup → ∀ (t : Target) (env₀ : List Char),
        (flattenedConfigs envs opts).countP
          (fun c => decide (c.target = t ∧ c.env = env₀))
          = if env₀ ∈ envs then 1 else 0) :=
  ⟨length_flattenedConfigs envs opts, flattenedConfigs_flatMap envs opts,
   fun h t env₀ => count_target_env opts t env₀ envs h⟩

/-- Witness for C3 at a concrete two-environment list. -/
theorem c3_profile_assembly_witness :
    (flattenedConfigs [devEnvName, prodEnvName] sampleOpts).countP
      (fun c => decide (c.target = Target.web ∧ c.env = devEnvName))
      = if devEnvName ∈ [devEnvName, prodEnvName] then 1 else 0 :=
  (c3_profile_assembly [devEnvName, prodEnvName] sampleOpts).2.2 (by decide)
    Target.web devEnvName

lemma opts_of_mem_flattenedConfigs (opts : SharedOpts) (c : WebpackConfig) :
    ∀ envs : List (List Char), c ∈ flattenedConfigs envs opts → c.opts = opts := by
  intro envs h
  induction envs with
  | nil => simp [flattenedConfigs, profiles] at h
  | cons e es ih =>
      rw [flattenedConfigs_cons] at h
      rcases List.mem_cons.1 h with h1 | h'
      · rw [h1]; rfl
      · rcases List.mem_cons.1 h' with h2 | h3
        · rw [h2]; rfl
        · exact ih h3

/-- C9: every configuration the assembler hands the engine — in particular
the browser and server configuration of each environment — carries the
orchestrator's single shared options record, hence the identical state bag
(the same DeferredState containers) and the same project metadata
references. -/
theorem c9_shared_state_bag (envs : List (List Char)) (opts : SharedOpts)
    (c₁ c₂ : WebpackConfig) (h₁ : c₁ ∈ flattenedConfigs envs opts)
    (h₂ : c₂ ∈ flattenedConfigs envs opts) :
    c₁.opts = opts
    ∧ c₁.opts.state = c₂.opts.state
    ∧ c₁.opts.state.clientChunkMetadata = c₂.opts.state.clientChunkMetadata
    ∧ c₁.opts.state.i18nManifest = c₂.opts.state.i18nManifest
    ∧ c₁.opts.fusionConfig = c₂.opts.fusionConfig
    ∧ c₁.opts.legacyPkgConfig = c₂.opts.legacyPkgConfig := by
  have e₁ := opts_of_mem_flattenedConfigs opts c₁ envs h₁
  have e₂ := opts_of_mem_flattenedConfigs opts c₂ envs h₂
  rw [e₁, e₂]
  exact ⟨rfl, rfl, rfl, rfl, rfl, rfl⟩

/-- Witness for C9 at the browser and server configuration of one
environment. -/
theorem c9_shared_state_bag_witness :
    (getWebpackConfig Target.web devEnvName sampleOpts).opts = sampleOpts
    ∧ (getWebpackConfig Target.web devEnvName sampleOpts).opts.state
        = (getWebpackConfig Target.node devEnvName sampleOpts).opts.state
    ∧ (getWebpackConfig Target.web devEnvName sampleOpts).opts.state.clientChunkMetadata
        = (getWebpackConfig Target.node devEnvName sampleOpts).opts.state.clientChunkMetadata
    ∧ (getWebpackConfig Target.web devEnvName sampleOpts).opts.state.i18nManifest
        = (getWebpackConfig Target.node devEnvName sampleOpts).opts.state.i18nManifest
    ∧ (getWebpackConfig Target.web devEnvName sampleOpts).opts.fusionConfig
        = (getWebpackConfig Target.node devEnvName sampleOpts).opts.fusionConfig
    ∧ (getWebpackConfig Target.web devEnvName sampleOpts).opts.legacyPkgConfig
        = (getWebpackConfig Target.node devEnvName sampleOpts).opts.legacyPkgConfig :=
  c9_shared_state_bag [devEnvName] sampleOpts
    (getWebpackConfig Target.web devEnvName sampleOpts)
    (getWebpackConfig Target.node devEnvName sampleOpts)
    (by decide) (by decide)

/-- C8: `clean()` rejects with the underlying filesystem error exactly when
the removal fails and resolves exactly when it succeeds; removal of an
absent directory succeeds, so two consecutive clean calls on an
already-clean tree both resolve. -/
theorem c8_clean_resolve_reject (dir : List Char) (fsys : FileSys) :
    (∀ e, (cleanRun dir fsys (some e)).2 = Except.error e)
    ∧ (cleanRun dir fsys none).2 = Except.ok ()
    ∧ (cleanRun dir (cleanRun dir fsys none).1 none).2 = Except.ok () :=
  ⟨fun _ => rfl, rfl, rfl⟩

/-- C6: the composed middleware runs the dev middleware first; when it
reports an error the error goes to `next` and the hot middleware never
runs; when it succeeds the hot middleware runs with the same request,
response and `next`. -/
theorem c6_middleware_chain (outcome : Nat → Nat → Option Nat) (req res : Nat) :
    (∀ e, outcome req res = some e →
      composedMiddleware (devMiddlewareOf outcome) hotMiddlewareProbe req res
          hostNext
        = [MwAction.devRan req res, MwAction.nextInvoked (some e)]
      ∧ (composedMiddleware (devMiddlewareOf outcome) hotMiddlewareProbe req res
          hostNext).countP isHotRan = 0)
    ∧ (outcome req res = none →
      composedMiddleware (devMiddlewareOf outcome) hotMiddlewareProbe req res
          hostNext
        = [MwAction.devRan req res, MwAction.hotRan req res,
           MwAction.nextInvoked none]) := by
  constructor
  · intro e he
    constructor <;>
      simp [composedMiddleware, devMiddlewareOf, hotMiddlewareProbe, hostNext,
        he, isHotRan, List.countP_cons]
  · intro he
    simp [composedMiddleware, devMiddlewareOf, hotMiddlewareProbe, hostNext, he]

/-- Witness for C6 with a dev middleware that reports an error. -/
theorem c6_middleware_chain_witness :
    composedMiddleware (devMiddlewareOf sampleOutcomeErr) hotMiddlewareProbe 1 2
        hostNext
      = [MwAction.devRan 1 2, MwAction.nextInvoked (some 5)] :=
  ((c6_middleware_chain sampleOutcomeErr 1 2).1 5 rfl).1

lemma countP_isLogInfo_map_logError (l : List (List Char)) :
    (l.map Effect.logError).countP isLogInfo = 0 := by
  rw [List.countP_map]
  exact List.countP_eq_zero.2 (by intro a _; simp [Function.comp, isLogInfo])

lemma countP_isLogInfo_map_logWarn (l : List (List Char)) :
    (l.map Effect.logWarn).countP isLogInfo = 0 := by
  rw [List.countP_map]
  exact List.countP_eq_zero.2 (by intro a _; simp [Function.comp, isLogInfo])

/-- C4: with environments `["production"]` and the sample stats snapshot,
the reporter writes the artifact and logs exactly two three-line asset
entries — c.js (900 bytes) before b.js (300 bytes) — omitting the
`.map` asset; and when no production environment is active no info-level
asset line is ever logged. -/
theorem c4_production_asset_report :
    getStatsLoggerRun [prodEnvName] none statsSampleProd =
      [Effect.writeStats statsSampleProd.info,
       Effect.logInfo (entrypointLine "client".data),
       Effect.logInfo (assetLine "c.js".data),
       Effect.logInfo (sizeLine 900),
       Effect.logInfo (entrypointLine "client".data),
       Effect.logInfo (assetLine "b.js".data),
       Effect.logInfo (sizeLine 300)]
    ∧ (∀ (envs : List (List Char)) (err : Option JsError) (stats : Stats),
        envs.contains "production".data = false →
        (getStatsLoggerRun envs err stats).countP isLogInfo = 0) := by
  constructor
  · decide
  · intro envs err stats h
    cases err with
    | some e =>
        rcases e with ⟨stk, sr, details⟩
        cases details <;>
          simp [getStatsLoggerRun, isLogInfo, List.countP_cons]
    | none =>
        have hmem : ¬(("production".data : List Char) ∈ envs) := by simpa using h
        cases hE : stats.hasErrors <;> cases hW : stats.hasWarnings <;>
          simp [getStatsLoggerRun, h, hmem, hE, hW, List.countP_append,
            List.countP_cons, isLogInfo, countP_isLogInfo_map_logError,
            countP_isLogInfo_map_logWarn]

/-- Witness for C4's non-production clause at a concrete environment list. -/
theorem c4_production_asset_report_witness :
    (getStatsLoggerRun [devEnvName] none statsSampleProd).countP isLogInfo = 0 :=
  c4_production_asset_report.2 [devEnvName] none statsSampleProd (by decide)

lemma filter_isLogError_triples (cn : List Char) (l : List Asset) :
    (l.flatMap (fun a =>
      [Effect.logInfo (entrypointLine cn), Effect.logInfo (assetLine a.name),
       Effect.logInfo (sizeLine a.size)])).filter isLogError = [] := by
  induction l with
  | nil => rfl
  | cons a rest ih =>
      simp only [List.flatMap_cons, List.filter_append, ih]
      simp [isLogError]

lemma filter_isLogError_assetReport (c : Child) :
    (assetReport c).filter isLogError = [] := by
  rw [assetReport]
  exact filter_isLogError_triples c.name _

lemma filter_isLogError_children (cs : List Child) :
    ((cs.flatMap assetReport).filter isLogError) = [] := by
  induction cs with
  | nil => rfl
  | cons c rest ih =>
      simp only [List.flatMap_cons, List.filter_append, ih,
        filter_isLogError_assetReport]
      rfl

lemma filter_isLogError_map_logWarn (l : List (List Char)) :
    (l.map Effect.logWarn).filter isLogError = [] := by
  induction l with
  | nil => rfl
  | cons x xs ih => simp [isLogError, ih]

lemma filter_isLogError_map_logError (l : List (List Char)) :
    (l.map Effect.logError).filter isLogError = l.map Effect.logError := by
  rw [List.filter_eq_self]
  intro a ha
  rcases List.mem_map.1 ha with ⟨m, -, rfl⟩
  rfl

lemma filter_isLogError_run (envs : List (List Char)) (info : StatsInfo)
    (flagW : Bool) :
    (getStatsLoggerRun envs none ⟨info, true, flagW⟩).filter isLogError
      = (dedupeErrors info.errors).map Effect.logError := by
  have hpr : ((if envs.contains "production".data then
      info.children.flatMap assetReport else []).filter isLogError) = [] := by
    cases envs.contains "production".data
    · rfl
    · exact filter_isLogError_children info.children
  have hwn : ((if flagW then (dedupeErrors info.warnings).map Effect.logWarn
      else []).filter isLogError) = [] := by
    cases flagW
    · rfl
    · exact filter_isLogError_map_logWarn _
  show (Effect.writeStats info ::
      ((dedupeErrors info.errors).map Effect.logError ++
        (if envs.contains "production".data then
          info.children.flatMap assetReport else []) ++
        (if flagW then (dedupeErrors info.warnings).map Effect.logWarn
          else []))).filter isLogError
    = (dedupeErrors info.errors).map Effect.logError
  rw [List.filter_cons_of_neg (fun hcon => Bool.false_ne_true hcon),
    List.filter_append, List.filter_append, hpr, hwn,
    filter_isLogError_map_logError]
  simp

/-- C10: the dedupe pass rewrites messages individually and never drops a
list entry — the output list always has the input's length — so two
identical complete error messages occurring as separate entries are both
logged. -/
theorem c10_dedupe_per_message_only (items : List (List Char)) :
    (dedupeErrors items).length = items.length
    ∧ (∀ (envs : List (List Char)) (msg : List Char) (cs : List Child)
        (ws : List (List Char)) (flagW : Bool),
        (getStatsLoggerRun envs none ⟨⟨cs, [msg, msg], ws⟩, true, flagW⟩).filter
            isLogError
          = [Effect.logError (dedupeOne msg), Effect.logError (dedupeOne msg)]) := by
  refine ⟨by simp [dedupeErrors], ?_⟩
  intro envs msg cs ws flagW
  rw [filter_isLogError_run envs ⟨cs, [msg, msg], ws⟩ flagW]
  rfl

lemma filter_isCb_startHandlerRun_called (envs : List (List Char)) (cb : CbFn)
    (l : List (Option JsError × Stats)) :
    (startHandlerRun envs cb true l).filter isCbInvoked = [] := by
  rw [startHandlerRun_called, List.filter_eq_nil_iff]
  intro a ha
  rcases List.mem_map.1 ha with ⟨ev, -, rfl⟩
  simp [isCbInvoked]

/-- C7 counterexample: when a successful completion precedes the hard
error, the callback has already fired with a null error, so the first (and
only) hard error is never forwarded to the `start` callback — refuting the
claim that the first such error is forwarded. -/
theorem c7_error_forwarding_counterexample :
    (startHandlerRun [] cbProbe false
        [(none, statsSampleEmpty), (some errSample, statsSampleEmpty)]).filter
        isCbInvoked
      = [WatchAction.cbInvoked none statsSampleEmpty]
    ∧ (startHandlerRun [] cbProbe false
        [(none, statsSampleEmpty), (some errSample, statsSampleEmpty)]).countP
        (fun a => decide (a = WatchAction.cbInvoked (some errSample)
          statsSampleEmpty))
      = 0 := by
  constructor <;> decide

/-- C7 (amended): for every completion event carrying a hard error the
reporter logs the error's stack (or the error itself) plus its structured
detail and stops — no artifact write, no warning list, no asset report —
and the error reaches the `start` callback exactly when the erroring event
is the first completion handler invocation. -/
theorem c7_error_event_reporting (envs : List (List Char)) (e : JsError)
    (st : Stats) (rest : List (Option JsError × Stats)) :
    getStatsLoggerRun envs (some e) st
      = Effect.logError (e.stack.getD e.selfRepr) ::
          (match e.details with
           | some d => [Effect.logError d]
           | none => [])
    ∧ (getStatsLoggerRun envs (some e) st).countP isWriteStats = 0
    ∧ (getStatsLoggerRun envs (some e) st).countP isLogWarn = 0
    ∧ (getStatsLoggerRun envs (some e) st).countP isLogInfo = 0
    ∧ (startHandlerRun envs cbProbe false ((some e, st) :: rest)).filter
        isCbInvoked = [WatchAction.cbInvoked (some e) st] := by
  refine ⟨rfl, ?_, ?_, ?_, ?_⟩
  · rcases e with ⟨stk, sr, details⟩
    cases details <;> simp [getStatsLoggerRun, isWriteStats, List.countP_cons]
  · rcases e with ⟨stk, sr, details⟩
    cases details <;> simp [getStatsLoggerRun, isLogWarn, List.countP_cons]
  · rcases e with ⟨stk, sr, details⟩
    cases details <;> simp [getStatsLoggerRun, isLogInfo, List.countP_cons]
  · simp [startHandlerRun, startHandlerStep, cbProbe, List.filter_append,
      filter_isCb_startHandlerRun_called, isCbInvoked, List.filter_cons]

lemma matchesAt_lt_length (pat s : List Char) (k : Nat) (hpat : pat ≠ [])
    (h : matchesAt pat s k = true) : k < s.length := by
  by_contra hk
  push_neg at hk
  rw [matchesAt, List.drop_eq_nil_of_le hk, List.take_nil, List.map_nil] at h
  exact hpat (beq_iff_eq.1 h).symm

lemma getLast?_max (m : Nat) :
    ∀ l : List Nat, l.Pairwise (· < ·) → l.getLast? = some m →
      ∀ x ∈ l, x ≤ m := by
  intro l
  induction l with
  | nil =>
      intro _ h
      simp at h
  | cons a t ih =>
      intro hp h x hx
      cases t with
      | nil =>
          rcases List.mem_singleton.1 hx with rfl
          have ham : x = m := by simpa using h
          exact Nat.le_of_eq ham
      | cons b t' =>
          rw [List.getLast?_cons_cons] at h
          rcases List.pairwise_cons.1 hp with ⟨ha, hp'⟩
          rcases List.mem_cons.1 hx with rfl | hx'
          · have hm : m ∈ b :: t' :=
              List.mem_of_mem_getLast? (Option.mem_def.2 h)
            exact Nat.le_of_lt (ha m hm)
          · exact ih hp' h x hx'

lemma head?_filterMap_min (g : Nat → Option (Nat × Nat))
    (hg : ∀ x y, g x = some y → y.1 = x) (i j : Nat) :
    ∀ l : List Nat, l.Pairwise (· < ·) →
      (l.filterMap g).head? = some (i, j) →
      ∀ x ∈ l, (g x).isSome → i ≤ x := by
  intro l
  induction l with
  | nil =>
      intro _ h
      simp at h
  | cons a t ih =>
      intro hp h x hx hsome
      rcases List.pairwise_cons.1 hp with ⟨ha, hp'⟩
      cases hga : g a with
      | none =>
          rw [List.filterMap_cons_none hga] at h
          rcases List.mem_cons.1 hx with rfl | hx'
          · rw [hga] at hsome
            exact absurd hsome (by simp)
          · exact ih hp' h x hx' hsome
      | some y =>
          rw [List.filterMap_cons_some hga] at h
          have hy : y = (i, j) := by simpa using h
          have h1 := hg a y hga
          rw [hy] at h1
          have hia : i = a := h1
          rcases List.mem_cons.1 hx with rfl | hx'
          · exact Nat.le_of_eq hia
          · have haux := ha x hx'
            omega

/-- C5 counterexample: on the doubled marker/trace message the dedupe
rewrite keeps only the trailing trace fragment — the marker, and with it
the final occurrence of the whole marker/trace pair, does not survive in
the logged message, although the final pair itself plainly contains the
marker. -/
theorem c5_dedupe_counterexample :
    dedupeErrors [babelDoubled] = [transpileFrag]
    ∧ occursIn "BabelLoaderError".data (dedupeOne babelDoubled) = false
    ∧ occursIn "BabelLoaderError".data babelBlock = true := by
  refine ⟨?_, ?_, ?_⟩ <;> decide

/-- C5 (amended): whenever the dedupe regex matches — first viable marker
offset `i`, group-2 fragment offset `j` — the scan replaces the whole
matched span with the fragment occurrence at `j` alone: `j` is the final
trace-fragment occurrence reachable by `(.|
)+` from the marker, `i` is
the first viable marker offset at or after the scan position, and only
that final trace fragment (not the marker) is retained in place of the
span. -/
theorem c5_dedupe_keeps_final_fragment (s : List Char) (p i j fuel : Nat)
    (h : findMatchFrom s p = some (i, j)) :
    replaceScan s p (fuel + 1)
      = (s.drop p).take (i - p) ++ (s.drop j).take fragLen ++
          replaceScan s (j + fragLen) fuel
    ∧ matchesAt babelMarker s i = true
    ∧ p ≤ i
    ∧ matchesAt transpileFrag s j = true
    ∧ i + markerLen + 1 ≤ j
    ∧ j ≤ consumableRunEnd s (i + markerLen)
    ∧ (∀ j', matchesAt transpileFrag s j' = true → i + markerLen + 1 ≤ j' →
        j' ≤ consumableRunEnd s (i + markerLen) → j' ≤ j)
    ∧ (∀ i', matchesAt babelMarker s i' = true → p ≤ i' →
        (spanFragEnd s i').isSome → i ≤ i') := by
  have hmem : (i, j) ∈ ((List.range s.length).filter
      (fun i => p ≤ i && matchesAt babelMarker s i)).filterMap
      (fun i => (spanFragEnd s i).map (fun j => (i, j))) :=
    List.mem_of_mem_head? (Option.mem_def.2 h)
  rcases List.mem_filterMap.1 hmem with ⟨i₀, hi₀mem, hgi₀⟩
  rcases Option.map_eq_some'.1 hgi₀ with ⟨j₀, hspan, hpair⟩
  have hii : i₀ = i ∧ j₀ = j := by
    have h1 := congrArg Prod.fst hpair
    have h2 := congrArg Prod.snd hpair
    exact ⟨h1, h2⟩
  obtain ⟨rfl, rfl⟩ := hii
  rcases List.mem_filter.1 hi₀mem with ⟨-, hq⟩
  rw [Bool.and_eq_true] at hq
  obtain ⟨hple, hmark⟩ := hq
  have hple' : p ≤ i₀ := of_decide_eq_true hple
  have hjmem : j₀ ∈ (fragFrom s (i₀ + markerLen + 1)).filter
      (fun j => j ≤ consumableRunEnd s (i₀ + markerLen)) :=
    List.mem_of_mem_getLast? (Option.mem_def.2 hspan)
  rcases List.mem_filter.1 hjmem with ⟨hjfrag, hjle⟩
  have hjle' : j₀ ≤ consumableRunEnd s (i₀ + markerLen) :=
    of_decide_eq_true hjle
  rcases List.mem_filter.1 hjfrag with ⟨-, hjq⟩
  rw [Bool.and_eq_true] at hjq
  obtain ⟨hjlo, hjmatch⟩ := hjq
  have hjlo' : i₀ + markerLen + 1 ≤ j₀ := of_decide_eq_true hjlo
  have hsortedF : ((fragFrom s (i₀ + markerLen + 1)).filter
      (fun j => j ≤ consumableRunEnd s (i₀ + markerLen))).Pairwise (· < ·) :=
    List.Pairwise.filter _
      (List.Pairwise.filter _ (List.pairwise_lt_range s.length))
  have hmax := getLast?_max j₀ _ hsortedF hspan
  refine ⟨by simp [replaceScan, h], hmark, hple', hjmatch, hjlo', hjle', ?_, ?_⟩
  · intro j' h1 h2 h3
    have hlt : j' < s.length :=
      matchesAt_lt_length transpileFrag s j' (by decide) h1
    refine hmax j' (List.mem_filter.2 ⟨List.mem_filter.2
      ⟨List.mem_range.2 hlt, ?_⟩, ?_⟩)
    · rw [Bool.and_eq_true]
      exact ⟨decide_eq_true h2, h1⟩
    · exact decide_eq_true h3
  · intro i' hm1 hm2 hm3
    have hlt : i' < s.length :=
      matchesAt_lt_length babelMarker s i' (by decide) hm1
    have hsorted : ((List.range s.length).filter
        (fun i => p ≤ i && matchesAt babelMarker s i)).Pairwise (· < ·) :=
      List.Pairwise.filter _ (List.pairwise_lt_range s.length)
    refine head?_filterMap_min _ ?_ i₀ j₀ _ hsorted h i' (List.mem_filter.2
      ⟨List.mem_range.2 hlt, ?_⟩) ?_
    · intro x y hxy
      rcases Option.map_eq_some'.1 hxy with ⟨j₁, -, hy⟩
      rw [← hy]
    · rw [Bool.and_eq_true]
      exact ⟨decide_eq_true hm2, hm1⟩
    · rcases Option.isSome_iff_exists.1 hm3 with ⟨j₂, hj₂⟩
      simp [hj₂]

/-- Witness for the amended C5 on the doubled marker/trace message: the
match spans from offset 0 to the second fragment occurrence at offset 56,
which is what the replacement keeps. -/
theorem c5_dedupe_keeps_final_fragment_witness :
    matchesAt babelMarker babelDoubled 0 = true
    ∧ matchesAt transpileFrag babelDoubled 56 = true
    ∧ replaceScan babelDoubled 0 72
        = (babelDoubled.drop 0).take 0 ++ (babelDoubled.drop 56).take fragLen ++
            replaceScan babelDoubled 72 71 :=
  ⟨(c5_dedupe_keeps_final_fragment babelDoubled 0 0 56 71 (by decide)).2.1,
   (c5_dedupe_keeps_final_fragment babelDoubled 0 0 56 71 (by decide)).2.2.2.1,
   (c5_dedupe_keeps_final_fragment babelDoubled 0 0 56 71 (by decide)).1⟩

end FusionBuild
